import Mathlib

/-!
# Verification of the etcd server apply/membership pipeline specification

Shallow embedding of the repository's code and a model of its server core.
The file `server/storage/backend/config_linux.go` is embedded directly from
source.  The `etcdserver` package itself is not part of the source tree
(only its test file is), so the apply engine, membership view, snapshot
coordinator and lifecycle helpers are modelled from the specification and
checked against it.
-/

namespace Etcd

/-! ## Embedding of `server/storage/backend/config_linux.go` -/

/-- Result of the custom `OpenFile` in `boltOpenOptions`: either the DB file
is opened at the given path directly, or inside a freshly created and mounted
tmpfs directory, or an error occurred while creating / mounting the tmpfs. -/
inductive OpenFileResult
  | direct (path : String)
  | onTmpfs (tempDir : String) (path : String)
  | errMkdirTemp
  | errMount
  deriving DecidableEq

/-- `strings.ReplaceAll(filepath.ToSlash(path), "/", "_")` from
`config_linux.go` (on Linux `filepath.ToSlash` is the identity). -/
def toSlashName (path : String) : String := path.replace "/" "_"

/-- Shallow embedding of `boltOpenOptions.OpenFile` in `config_linux.go`.
`etcdTmpfs` is the value of `os.Getenv("ETCD_TMPFS")` (`""` when unset);
`mkdirTempSuffix` is the random suffix chosen by
`os.MkdirTemp("/mnt", "tmpfs-")` (`none` models its failure), so the created
directory is `/mnt/tmpfs-<suffix>`; `mountOk` is whether
`unix.Mount("tmpfs", tempDir, "tmpfs", 0, "")` succeeds. -/
def boltOpenOptionsOpenFile (etcdTmpfs : String) (mkdirTempSuffix : Option String)
    (mountOk : Bool) (path : String) : OpenFileResult :=
  if etcdTmpfs ≠ "" then
    .direct path
  else
    match mkdirTempSuffix with
    | none => .errMkdirTemp
    | some suffix =>
      let tempDir := "/mnt/tmpfs-" ++ suffix
      if mountOk then .onTmpfs tempDir (tempDir ++ "/" ++ toSlashName path)
      else .errMount

/-- Whether an `OpenFile` outcome opened the DB file inside a tmpfs mount. -/
def opensOnTmpfs : OpenFileResult → Bool
  | .onTmpfs _ _ => true
  | _ => false

/-! ## Data model of the server core

The `etcdserver` package is not under the source tree (only its test file
is), so the definitions below are modelled from the specification. -/

/-- Modelled from the spec: conf-change types
(`{AddNode, RemoveNode, UpdateNode, AddLearner, Promote}`, §3). -/
inductive ConfChangeType
  | addNode
  | removeNode
  | updateNode
  | addLearner
  | promote
  deriving DecidableEq

/-- Modelled from the spec: a raft conf change
`{type, nodeID:u64, context:bytes}` (§3); `ccid` is the conf-change id used
to wake its waiter (§4.4 step 5). -/
structure ConfChange where
  typ : ConfChangeType
  nodeID : Nat
  context : List Nat
  ccid : Nat
  deriving DecidableEq

/-- Modelled from the spec: the Membership View's member sets — live member
ids and permanently blacklisted removed ids (§3, §4.3). -/
structure MembershipView where
  members : List Nat
  removed : List Nat
  deriving DecidableEq

/-- Modelled from the spec: membership validation errors
`ID-removed`, `ID-exists`, `ID-not-found` (§4.3, §7). -/
inductive MembershipError
  | errIDRemoved
  | errIDExists
  | errIDNotFound
  deriving DecidableEq

/-- Modelled from the spec: validation of a conf change against the
Membership View (§4.3): Add fails `ID-removed` for a previously removed id
and `ID-exists` for a live id; Update/Promote fail `ID-removed` /
`ID-not-found`; Remove fails `ID-not-found` for an absent id. -/
def validateConfChange (v : MembershipView) (cc : ConfChange) : Option MembershipError :=
  match cc.typ with
  | .addNode | .addLearner =>
    if cc.nodeID ∈ v.removed then some .errIDRemoved
    else if cc.nodeID ∈ v.members then some .errIDExists
    else none
  | .updateNode | .promote =>
    if cc.nodeID ∈ v.removed then some .errIDRemoved
    else if cc.nodeID ∈ v.members then none
    else some .errIDNotFound
  | .removeNode =>
    if cc.nodeID ∈ v.members then none else some .errIDNotFound

/-- Modelled from the spec: mirroring a validated conf change into a
membership view (§4.3, §4.4 step 3): Add inserts the member, Remove moves it
to the permanently blacklisted set, Update only rewrites raft attributes. -/
def applyToView (v : MembershipView) (cc : ConfChange) : MembershipView :=
  match cc.typ with
  | .addNode | .addLearner => { v with members := cc.nodeID :: v.members }
  | .removeNode =>
    { members := v.members.erase cc.nodeID, removed := cc.nodeID :: v.removed }
  | .updateNode | .promote => v

/-- Modelled from the spec: the conf state maintained by the Raft library
(voters only; learners are irrelevant to the claims checked here). -/
structure ConfState where
  voters : List Nat
  deriving DecidableEq

/-- Modelled from the spec: the Raft library's `ApplyConfChange` (the Raft
library is out of scope, §1 — this captures only what the spec relies on):
a conf change whose `NodeID` is `None` (0) is recorded as a no-op while
still advancing state (§4.4); otherwise Add inserts the node into the
voters and Remove erases it. -/
def raftApplyConfChange (cs : ConfState) (cc : ConfChange) : ConfState :=
  if cc.nodeID = 0 then cs
  else
    match cc.typ with
    | .addNode =>
      { voters := if cc.nodeID ∈ cs.voters then cs.voters else cs.voters ++ [cc.nodeID] }
    | .removeNode => { voters := cs.voters.erase cc.nodeID }
    | _ => cs

/-- Modelled from the spec: the payload of a log entry — a Normal entry
carries an `InternalRequest` with a `Header.ID` used to wake waiters, a
ConfChange entry carries a conf change (§3). -/
inductive EntryData
  | normal (reqID : Nat)
  | confChange (cc : ConfChange)
  deriving DecidableEq

/-- Modelled from the spec: a committed log entry
`{index:u64, term:u64, kind, payload}` (§3). -/
structure Entry where
  term : Nat
  index : Nat
  data : EntryData
  deriving DecidableEq

/-- Modelled from the spec: calls recorded against the Raft library —
`ApplyConfChange(cc)` from the apply engine (§4.4) and `Step` from
`Process` (§4.8). -/
inductive RaftAction
  | applyConfChange (cc : ConfChange)
  | step
  deriving DecidableEq

/-- Modelled from the spec: the persisted `meta` bucket of the backend —
keys `consistent_index`, `term` and `confState` (§6). -/
structure BackendMeta where
  consistentIndex : Nat
  term : Nat
  confState : ConfState
  deriving DecidableEq

/-- Modelled from the spec: the server state the claims are about — the
member id, the Membership View as seen by validation (the in-memory cluster
object mirrored into the legacy v2 store, rebuilt on restart), the
membership bucket of the backend (authoritative on restart, §4.3), the raft
conf state, the in-memory apply progress, the consistent-index cursor
staged via `SetBatch` (§4.1), the persisted `meta` bucket, the applied
Normal side effects (the MVCC log), the calls issued to the Raft library,
and the waiter ids woken (§4.2, §4.4 step 5). -/
structure EtcdServer where
  memberID : Nat
  cluster : MembershipView
  backendMembers : MembershipView
  confState : ConfState
  stagedConfState : Option ConfState
  appliedTerm : Nat
  appliedIndex : Nat
  committedIndex : Nat
  ciTerm : Nat
  ciIndex : Nat
  meta : BackendMeta
  kvLog : List (Nat × Nat)
  raftActions : List RaftAction
  triggered : List Nat
  deriving DecidableEq

/-- Outcome of `applyConfChange`: the new server state, the `shouldStop`
flag and the validation error (if any). -/
structure ConfChangeResult where
  srv : EtcdServer
  shouldStop : Bool
  err : Option MembershipError
  deriving DecidableEq

/-- Modelled from the spec: `applyConfChange(cc, confState, shouldApplyV3)`
(§4.4 step 3): validate against the Membership View; on validation failure
overwrite `cc.NodeID := None` (0) so the Raft library records a no-op conf
change while still advancing state, and return the validation error; on a
valid `Remove(self.id)` set `shouldStop`; on success call the Raft
library's `ApplyConfChange(cc)` to update the conf state, stage the conf
state for the pre-commit hook, and mirror the change into the Membership
View (into the backend membership bucket only when `shouldApplyV3`). -/
def applyConfChange (s : EtcdServer) (cc : ConfChange) (shouldApplyV3 : Bool) :
    ConfChangeResult :=
  match validateConfChange s.cluster cc with
  | some e =>
    let ccNone : ConfChange := { cc with nodeID := 0 }
    { srv := { s with raftActions := s.raftActions ++ [.applyConfChange ccNone] },
      shouldStop := false,
      err := some e }
  | none =>
    let cs := raftApplyConfChange s.confState cc
    { srv := { s with
        confState := cs,
        stagedConfState := some cs,
        raftActions := s.raftActions ++ [.applyConfChange cc],
        cluster := applyToView s.cluster cc,
        backendMembers :=
          if shouldApplyV3 then applyToView s.backendMembers cc else s.backendMembers },
      shouldStop := decide (cc.typ = .removeNode ∧ cc.nodeID = s.memberID),
      err := none }

/-- The id whose waiter an entry wakes: `request.Header.ID` for a Normal
entry, the conf-change id for a ConfChange entry (§4.4 step 5). -/
def waitID (e : Entry) : Nat :=
  match e.data with
  | .normal reqID => reqID
  | .confChange cc => cc.ccid

/-- Modelled from the spec: applying one committed entry (§4.4, §4.1).
An entry is fresh when its index exceeds the consistent-index cursor;
duplicate suppression makes a stale entry a no-op for state-machine side
effects while the waiter is still woken.  A fresh entry stages
`SetBatch(term, index)` on the cursor; a fresh Normal entry is routed to
its applier (recorded in the MVCC log); a ConfChange entry always goes
through `applyConfChange`, with the backend mirror gated on freshness.
Both kinds advance the in-memory applied term/index and wake the waiter. -/
def applyEntry (s : EtcdServer) (e : Entry) : EtcdServer × Bool :=
  match e.data with
  | .normal reqID =>
    let fresh := s.ciIndex < e.index
    let s1 :=
      if fresh then
        { s with ciIndex := e.index, ciTerm := e.term,
                 kvLog := s.kvLog ++ [(e.index, reqID)] }
      else s
    ({ s1 with appliedIndex := e.index, appliedTerm := e.term,
               triggered := s1.triggered ++ [reqID] }, false)
  | .confChange cc =>
    let fresh := s.ciIndex < e.index
    let s1 := if fresh then { s with ciIndex := e.index, ciTerm := e.term } else s
    let r := applyConfChange s1 cc fresh
    ({ r.srv with appliedIndex := e.index, appliedTerm := e.term,
                  triggered := r.srv.triggered ++ [waitID e] }, r.shouldStop)

/-- Modelled from the spec: `apply(entries, confState, raftAdvancedC)`
(§4.4) over a batch, processing entries in order and accumulating
`shouldStop`. -/
def applyEntries (s : EtcdServer) : List Entry → EtcdServer × Bool
  | [] => (s, false)
  | e :: rest =>
    let p := applyEntry s e
    let q := applyEntries p.1 rest
    (q.1, p.2 || q.2)

/-- Modelled from the spec: the pre-commit hook (§4.1 `UnsafeSave`, §6):
writes the staged consistent index and term into the `meta` bucket, and the
staged conf state when one has been set. -/
def onPreCommitUnsafe (s : EtcdServer) : EtcdServer :=
  { s with
    meta := { consistentIndex := s.ciIndex, term := s.ciTerm,
              confState := s.stagedConfState.getD s.meta.confState } }

/-- The durable state-machine state observable to clients: the
consistent-index cursor, the backend membership bucket, the MVCC log, and
the persisted `meta` bucket.  The in-memory applied term/index (transient
apply progress), the conf state (owned by the out-of-scope Raft library)
and the legacy v2 mirror (a write-only compatibility sink, §9) are not part
of it. -/
structure DurableState where
  ciTerm : Nat
  ciIndex : Nat
  backendMembers : MembershipView
  kvLog : List (Nat × Nat)
  meta : BackendMeta
  deriving DecidableEq

/-- Projection of a server state onto its durable observable part. -/
def durable (s : EtcdServer) : DurableState :=
  { ciTerm := s.ciTerm, ciIndex := s.ciIndex, backendMembers := s.backendMembers,
    kvLog := s.kvLog, meta := s.meta }

/-- Largest index among a batch of entries (`max(entries.index)`). -/
def maxIndex : List Entry → Nat
  | [] => 0
  | e :: rest => max e.index (maxIndex rest)

/-- Whether an entry is a conf-change entry. -/
def isConfEntry (e : Entry) : Bool :=
  match e.data with
  | .confChange _ => true
  | .normal _ => false

/-- The conf change actually forwarded to the Raft library's
`ApplyConfChange`: the conf change itself when validation against the view
succeeds, and a copy with `NodeID := None` (0) when it fails (§4.4 step 3).
Validation depends only on the Membership View, so this is a function of
the view alone. -/
def forwardedCC (v : MembershipView) (cc : ConfChange) : ConfChange :=
  match validateConfChange v cc with
  | some _ => { cc with nodeID := 0 }
  | none => cc

/-- How one conf change evolves the Membership View: mirrored on successful
validation, a no-op on failure. -/
def ccViewStep (v : MembershipView) (cc : ConfChange) : MembershipView :=
  match validateConfChange v cc with
  | some _ => v
  | none => applyToView v cc

/-- The `ApplyConfChange` calls one entry issues to the Raft library:
nothing for a Normal entry, the forwarded conf change for a ConfChange
entry. -/
def traceStep (v : MembershipView) (e : Entry) : List RaftAction :=
  match e.data with
  | .normal _ => []
  | .confChange cc => [.applyConfChange (forwardedCC v cc)]

/-- How one entry evolves the Membership View. -/
def viewStep (v : MembershipView) (e : Entry) : MembershipView :=
  match e.data with
  | .normal _ => v
  | .confChange cc => ccViewStep v cc

/-- The Membership View after a batch of entries. -/
def viewAfter (v : MembershipView) : List Entry → MembershipView
  | [] => v
  | e :: rest => viewAfter (viewStep v e) rest

/-- The sequence of `ApplyConfChange` calls a batch of entries issues to the
Raft library, as a function of the initial Membership View. -/
def confTrace (v : MembershipView) : List Entry → List RaftAction
  | [] => []
  | e :: rest => traceStep v e ++ confTrace (viewStep v e) rest

/-! ## Snapshot coordinator and raft node wrapper (modelled from the spec) -/

/-- Modelled from the spec: actions recorded by the raft storage recorder —
`Save` of hard state and entries, `SaveSnap` of snapshot metadata, `Sync`,
the rename of the staged snapshot DB file to the live DB, and snapshotter
`Release` of older snapshot files (§4.5, §4.6). -/
inductive StorageAction
  | save
  | saveSnap (index : Nat)
  | sync
  | renameDB (src dst : String)
  | release (index : Nat)
  deriving DecidableEq

/-- The staging path `<snapdir>/<index>.snap.db` of a received snapshot
DB (§6). -/
def snapDbPath (snapdir : String) (index : Nat) : String :=
  snapdir ++ "/" ++ toString index ++ ".snap.db"

/-- Modelled from the spec: the disk and action state of the raft node
wrapper — the set of files on disk and the ordered trace of storage
actions (§4.5). -/
structure RaftStorageState where
  fs : List String
  trace : List StorageAction
  deriving DecidableEq

/-- Modelled from the spec: receiving a snapshot via the peer transport
first writes the snapshot file to `<snapdir>/<index>.snap.db` (§4.5 step 3,
§6). -/
def receiveSnapshot (st : RaftStorageState) (snapdir : String) (index : Nat) :
    RaftStorageState :=
  { st with fs := st.fs ++ [snapDbPath snapdir index] }

/-- Modelled from the spec: handling a `Ready` whose snapshot is present
(§4.5 step 3): `SaveSnap` the snapshot metadata, `Sync`, and only then
rename the staged `<snapdir>/<index>.snap.db` file to the live DB. -/
def applySnapshotReady (st : RaftStorageState) (snapdir dbPath : String)
    (index : Nat) : RaftStorageState :=
  let staged := snapDbPath snapdir index
  { fs := (st.fs.erase staged) ++ [dbPath],
    trace := st.trace ++ [.saveSnap index, .sync, .renameDB staged dbPath] }

/-- Modelled from the spec: the snapshot coordinator's in-memory progress
`{appliedTerm, appliedIndex, confState, memorySnapshotIndex,
diskSnapshotIndex}` (§3). -/
structure EtcdProgress where
  appliedTerm : Nat
  appliedIndex : Nat
  confState : ConfState
  memorySnapshotIndex : Nat
  diskSnapshotIndex : Nat
  deriving DecidableEq

/-- Modelled from the spec: `snapshot(ep, toDisk)` (§4.6): a memory
snapshot updates only `memorySnapshotIndex` to the applied index and
touches storage not at all; a disk snapshot updates both indices and
performs `SaveSnap` of the snapshot metadata followed by snapshotter
`Release` of older snapshot files. -/
def snapshot (ep : EtcdProgress) (toDisk : Bool) :
    EtcdProgress × List StorageAction :=
  if toDisk then
    ({ ep with memorySnapshotIndex := ep.appliedIndex,
               diskSnapshotIndex := ep.appliedIndex },
     [.saveSnap ep.appliedIndex, .release ep.appliedIndex])
  else
    ({ ep with memorySnapshotIndex := ep.appliedIndex }, [])

/-! ## Server lifecycle helpers (modelled from the spec) -/

/-- Modelled from the spec: a raft wire message; only the `To` field matters
to `Process`'s mismatch check (§4.8, §6). -/
structure Message where
  msgTo : Nat
  msgFrom : Nat
  term : Nat
  deriving DecidableEq

/-- Error returned by `Process` for a message addressed to another member. -/
inductive ProcessError
  | errMismatchedMember
  deriving DecidableEq

/-- Modelled from the spec: `Process(ctx, msg)` (§4.8) rejects messages
whose `To` field does not equal this server's id, returning an error
without touching raft; otherwise it forwards the message to the Raft
library's `Step`. -/
def process (s : EtcdServer) (m : Message) : Option ProcessError × EtcdServer :=
  if m.msgTo ≠ s.memberID then (some .errMismatchedMember, s)
  else (none, { s with raftActions := s.raftActions ++ [.step] })

/-- Modelled from the spec: which arm of `waitAppliedIndex`'s select becomes
ready first when the applied index has not yet caught up — the apply wait,
the `stopping` channel, or the configured deadline (§4.8). -/
inductive WaitOutcome
  | appliedReached
  | stoppingFired
  | deadlineExceeded
  deriving DecidableEq

/-- Errors `waitAppliedIndex` can return (§4.8, §7). -/
inductive WaitError
  | errStopped
  | errTimeoutWaitAppliedIndex
  deriving DecidableEq

/-- Modelled from the spec: `waitAppliedIndex()` (§4.8) returns `nil` once
`appliedIndex ≥ committedIndex` as observed at call time; otherwise it
blocks and returns according to which event fires first: `nil` when the
applied index catches up, `ErrStopped` when `stopping` fires, and
`ErrTimeoutWaitAppliedIndex` at the configured deadline. -/
def waitAppliedIndex (s : EtcdServer) (first : WaitOutcome) : Option WaitError :=
  if s.committedIndex ≤ s.appliedIndex then none
  else
    match first with
    | .appliedReached => none
    | .stoppingFired => some .errStopped
    | .deadlineExceeded => some .errTimeoutWaitAppliedIndex

/-! ## Helper lemmas -/

lemma applyEntries_fst_cons (s : EtcdServer) (e : Entry) (rest : List Entry) :
    (applyEntries s (e :: rest)).1 = (applyEntries (applyEntry s e).1 rest).1 := rfl

lemma applyConfChange_frame (s : EtcdServer) (cc : ConfChange) (b : Bool) :
    (applyConfChange s cc b).srv.ciIndex = s.ciIndex ∧
    (applyConfChange s cc b).srv.ciTerm = s.ciTerm ∧
    (applyConfChange s cc b).srv.kvLog = s.kvLog ∧
    (applyConfChange s cc b).srv.meta = s.meta ∧
    (applyConfChange s cc b).srv.triggered = s.triggered ∧
    (b = false → (applyConfChange s cc b).srv.backendMembers = s.backendMembers) := by
  cases h : validateConfChange s.cluster cc with
  | none =>
    simp [applyConfChange, h]
    rintro rfl
    simp
  | some e => simp [applyConfChange, h]

lemma applyConfChange_trace (s : EtcdServer) (cc : ConfChange) (b : Bool) :
    (applyConfChange s cc b).srv.raftActions
        = s.raftActions ++ [.applyConfChange (forwardedCC s.cluster cc)] ∧
    (applyConfChange s cc b).srv.cluster = ccViewStep s.cluster cc := by
  cases h : validateConfChange s.cluster cc <;>
    simp [applyConfChange, h, forwardedCC, ccViewStep]

lemma applyEntry_stale (s : EtcdServer) (e : Entry) (h : e.index ≤ s.ciIndex) :
    durable (applyEntry s e).1 = durable s ∧
    (applyEntry s e).1.triggered = s.triggered ++ [waitID e] := by
  have hlt : ¬ s.ciIndex < e.index := Nat.not_lt.mpr h
  cases hd : e.data with
  | normal reqID =>
    simp [applyEntry, hd, hlt, durable, waitID]
  | confChange cc =>
    obtain ⟨h1, h2, h3, h4, h5, h6⟩ := applyConfChange_frame s cc false
    simp [applyEntry, hd, hlt, durable, h1, h2, h3, h4, h5, h6 rfl]

lemma applyEntries_stale (P : List Entry) (s : EtcdServer)
    (h : ∀ e ∈ P, e.index ≤ s.ciIndex) :
    durable (applyEntries s P).1 = durable s ∧
    (applyEntries s P).1.triggered = s.triggered ++ P.map waitID := by
  induction P generalizing s with
  | nil => simp [applyEntries]
  | cons e rest ih =>
    have he : e.index ≤ s.ciIndex := h e (List.mem_cons_self e rest)
    obtain ⟨hd, ht⟩ := applyEntry_stale s e he
    have hci : (applyEntry s e).1.ciIndex = s.ciIndex :=
      congrArg DurableState.ciIndex hd
    have h' : ∀ x ∈ rest, x.index ≤ (applyEntry s e).1.ciIndex := by
      rw [hci]
      exact fun x hx => h x (List.mem_cons_of_mem _ hx)
    obtain ⟨hd2, ht2⟩ := ih (applyEntry s e).1 h'
    rw [applyEntries_fst_cons]
    exact ⟨hd2.trans hd, by rw [ht2, ht]; simp⟩

lemma applyEntry_ciIndex (s : EtcdServer) (e : Entry) :
    (applyEntry s e).1.ciIndex = max s.ciIndex e.index := by
  cases hd : e.data with
  | normal reqID =>
    by_cases hlt : s.ciIndex < e.index <;> simp [applyEntry, hd, hlt] <;> omega
  | confChange cc =>
    by_cases hlt : s.ciIndex < e.index <;>
      simp [applyEntry, hd, hlt, (applyConfChange_frame _ cc _).1] <;> omega

lemma applyEntries_ciIndex (S : List Entry) (s : EtcdServer) :
    (applyEntries s S).1.ciIndex = max s.ciIndex (maxIndex S) := by
  induction S generalizing s with
  | nil => simp [applyEntries, maxIndex]
  | cons e rest ih =>
    rw [applyEntries_fst_cons, ih, applyEntry_ciIndex, maxIndex]
    omega

lemma maxIndex_cons (e : Entry) (rest : List Entry) :
    maxIndex (e :: rest) = max e.index (maxIndex rest) := rfl

lemma mem_le_maxIndex {e : Entry} {S : List Entry} (h : e ∈ S) :
    e.index ≤ maxIndex S := by
  induction S with
  | nil => cases h
  | cons f rest ih =>
    rcases List.mem_cons.mp h with rfl | h'
    · rw [maxIndex_cons]; omega
    · have := ih h'; rw [maxIndex_cons]; omega

lemma applyEntry_appliedIndex (s : EtcdServer) (e : Entry) :
    (applyEntry s e).1.appliedIndex = e.index := by
  cases hd : e.data <;> simp [applyEntry, hd]

lemma applyEntries_appliedIndex_sorted (S : List Entry) (s : EtcdServer)
    (hne : S ≠ [])
    (hp : List.Pairwise (fun a b => a.index < b.index) S) :
    (applyEntries s S).1.appliedIndex = maxIndex S := by
  induction S generalizing s with
  | nil => exact absurd rfl hne
  | cons e rest ih =>
    rw [applyEntries_fst_cons]
    cases rest with
    | nil =>
      simp [applyEntries, applyEntry_appliedIndex, maxIndex]
    | cons f t =>
      have hp' := (List.pairwise_cons.mp hp).2
      rw [ih _ (by simp) hp']
      have hef : e.index < f.index :=
        (List.pairwise_cons.mp hp).1 f (List.mem_cons_self f t)
      have hfm : f.index ≤ maxIndex (f :: t) :=
        mem_le_maxIndex (List.mem_cons_self f t)
      rw [maxIndex_cons e (f :: t)]
      omega

lemma applyEntry_trace (s : EtcdServer) (e : Entry) :
    (applyEntry s e).1.raftActions = s.raftActions ++ traceStep s.cluster e ∧
    (applyEntry s e).1.cluster = viewStep s.cluster e := by
  cases hd : e.data with
  | normal reqID =>
    by_cases hlt : s.ciIndex < e.index <;>
      simp [applyEntry, hd, hlt, traceStep, viewStep]
  | confChange cc =>
    by_cases hlt : s.ciIndex < e.index
    · obtain ⟨ha, hb⟩ :=
        applyConfChange_trace { s with ciIndex := e.index, ciTerm := e.term } cc true
      constructor
      · simp only [applyEntry, hd, hlt, if_true, decide_True]
        simpa [traceStep, hd] using ha
      · simp only [applyEntry, hd, hlt, if_true, decide_True]
        simpa [viewStep, hd] using hb
    · obtain ⟨ha, hb⟩ := applyConfChange_trace s cc false
      constructor
      · simp only [applyEntry, hd, hlt, if_false, decide_False]
        simpa [traceStep, hd] using ha
      · simp only [applyEntry, hd, hlt, if_false, decide_False]
        simpa [viewStep, hd] using hb

lemma applyEntries_trace (S : List Entry) (t : EtcdServer) :
    (applyEntries t S).1.raftActions = t.raftActions ++ confTrace t.cluster S ∧
    (applyEntries t S).1.cluster = viewAfter t.cluster S := by
  induction S generalizing t with
  | nil => simp [applyEntries, confTrace, viewAfter]
  | cons e rest ih =>
    rw [applyEntries_fst_cons]
    obtain ⟨ha, hb⟩ := applyEntry_trace t e
    obtain ⟨hc, hd⟩ := ih (applyEntry t e).1
    rw [hc, hd, ha, hb, confTrace, viewAfter]
    simp

lemma confTrace_length (v : MembershipView) (S : List Entry) :
    (confTrace v S).length = (S.filter isConfEntry).length := by
  induction S generalizing v with
  | nil => simp [confTrace]
  | cons e rest ih =>
    rw [confTrace]
    cases hd : e.data with
    | normal reqID =>
      simp [traceStep, hd, isConfEntry, List.filter, ih]
    | confChange cc =>
      cases hv : validateConfChange v cc <;>
        simp [traceStep, hd, hv, isConfEntry, List.filter, ih]

/-! ## Concrete fixtures used by the claim theorems and witnesses -/

/-- A small server: local member 1, live members `{1}`, cursor at 0. -/
def sampleServer : EtcdServer :=
  { memberID := 1, cluster := ⟨[1], []⟩, backendMembers := ⟨[1], []⟩,
    confState := ⟨[1]⟩, stagedConfState := none,
    appliedTerm := 0, appliedIndex := 0, committedIndex := 2,
    ciTerm := 0, ciIndex := 0, meta := ⟨0, 0, ⟨[1]⟩⟩,
    kvLog := [], raftActions := [], triggered := [] }

/-- A Normal entry at index 1 waking waiter 5. -/
def sampleEntryOne : Entry := ⟨1, 1, .normal 5⟩

/-- A conf-change entry at index 2 removing non-local member 3. -/
def sampleEntryTwo : Entry := ⟨1, 2, .confChange ⟨.removeNode, 3, [7], 9⟩⟩

/-- The conf change of the C3 scenario: `Add(2)` with a member payload. -/
def c3ConfChange : ConfChange := ⟨.addNode, 2, [1, 2, 3], 0⟩

/-- The entry of the C3 scenario: `EntryConfChange` at index 2, term 4. -/
def c3Entry : Entry := ⟨4, 2, .confChange c3ConfChange⟩

/-- The server of the C3 scenario: a one-member cluster, empty conf state,
cursor and meta bucket at 0. -/
def c3Server : EtcdServer :=
  { memberID := 1, cluster := ⟨[1], []⟩, backendMembers := ⟨[1], []⟩,
    confState := ⟨[]⟩, stagedConfState := none,
    appliedTerm := 0, appliedIndex := 0, committedIndex := 2,
    ciTerm := 0, ciIndex := 0, meta := ⟨0, 0, ⟨[]⟩⟩,
    kvLog := [], raftActions := [], triggered := [] }

/-- The server of the multi-conf-change scenario: local member 2, live
members `{1..5}`. -/
def c4Server : EtcdServer :=
  { memberID := 2, cluster := ⟨[1, 2, 3, 4, 5], []⟩,
    backendMembers := ⟨[1, 2, 3, 4, 5], []⟩,
    confState := ⟨[1, 2, 3, 4, 5]⟩, stagedConfState := none,
    appliedTerm := 0, appliedIndex := 0, committedIndex := 4,
    ciTerm := 0, ciIndex := 0, meta := ⟨0, 0, ⟨[1, 2, 3, 4, 5]⟩⟩,
    kvLog := [], raftActions := [], triggered := [] }

/-- The batch of the multi-conf-change scenario: remove members 1..4 (the
local member 2 among them). -/
def c4Entries : List Entry :=
  [⟨1, 1, .confChange ⟨.removeNode, 1, [], 1⟩⟩,
   ⟨1, 2, .confChange ⟨.removeNode, 2, [], 2⟩⟩,
   ⟨1, 3, .confChange ⟨.removeNode, 3, [], 3⟩⟩,
   ⟨1, 4, .confChange ⟨.removeNode, 4, [], 4⟩⟩]

/-- The membership view of the validation-error scenario: live members
`{1,2,3}`, member 4 previously removed. -/
def c5View : MembershipView := ⟨[1, 2, 3], [4]⟩

/-- A server whose cluster is `c5View`. -/
def c5Server : EtcdServer :=
  { memberID := 1, cluster := c5View, backendMembers := c5View,
    confState := ⟨[1, 2, 3]⟩, stagedConfState := none,
    appliedTerm := 0, appliedIndex := 0, committedIndex := 0,
    ciTerm := 0, ciIndex := 0, meta := ⟨0, 0, ⟨[1, 2, 3]⟩⟩,
    kvLog := [], raftActions := [], triggered := [] }

/-! ## Claim theorems -/

/-- C1 (counterexample): the claim states that a non-empty `ETCD_TMPFS`
makes the backend open its DB file on a freshly mounted tmpfs under `/mnt`
and that an empty/unset `ETCD_TMPFS` makes it open the path directly.
`boltOpenOptions.OpenFile` in `config_linux.go` does the opposite on both
branches: with `ETCD_TMPFS="1"` it opens the given path directly (no tmpfs),
and with `ETCD_TMPFS` unset it does not open the path directly. -/
theorem c1_counterexample :
    opensOnTmpfs (boltOpenOptionsOpenFile "1" (some "xyz") true "/var/lib/etcd/db")
      = false ∧
    boltOpenOptionsOpenFile "" (some "xyz") true "/var/lib/etcd/db"
      ≠ OpenFileResult.direct "/var/lib/etcd/db" := by
  exact ⟨rfl, by decide⟩

/-- C1 (amended): tmpfs is opt-OUT, not opt-in.  If `ETCD_TMPFS` is set to a
non-empty string, the backend opens the DB file at the given path directly;
if it is empty or unset, the backend opens the DB file inside a freshly
created directory `/mnt/tmpfs-<rand>` mounted as tmpfs (under the file name
with slashes replaced by underscores), failing when the directory cannot be
created or mounted. -/
theorem c1_tmpfs_opt_out (env suffix path : String)
    (mk : Option String) (mok : Bool) :
    (env ≠ "" → boltOpenOptionsOpenFile env mk mok path = .direct path) ∧
    (boltOpenOptionsOpenFile "" (some suffix) true path
      = .onTmpfs ("/mnt/tmpfs-" ++ suffix)
          ("/mnt/tmpfs-" ++ suffix ++ "/" ++ toSlashName path)) ∧
    (boltOpenOptionsOpenFile "" none mok path = .errMkdirTemp) ∧
    (boltOpenOptionsOpenFile "" (some suffix) false path = .errMount) := by
  refine ⟨fun h => ?_, by simp [boltOpenOptionsOpenFile],
    by simp [boltOpenOptionsOpenFile], by simp [boltOpenOptionsOpenFile]⟩
  simp [boltOpenOptionsOpenFile, h]

/-- C1 (witness): the amended claim evaluated at `ETCD_TMPFS="1"`. -/
theorem c1_witness :
    ("1" : String) ≠ "" ∧
    boltOpenOptionsOpenFile "1" none false "/a/db" = OpenFileResult.direct "/a/db" :=
  ⟨by decide, (c1_tmpfs_opt_out "1" "r" "/a/db" none false).1 (by decide)⟩

/-- C2: apply is idempotent under replay — for every entry sequence `S` and
every prefix `P` of `S` (all of whose entries are already applied after
`apply(S)`, their indices being at most the consistent-index cursor),
re-delivering `P` to apply leaves the durable state-machine state (MVCC
log, backend membership, consistent index, meta bucket) unchanged — each
entry's side effects happen exactly once — while every replayed entry still
wakes its waiter. -/
theorem c2_idempotent_replay (s : EtcdServer) (S P Q : List Entry)
    (hS : S = P ++ Q) :
    durable (applyEntries (applyEntries s S).1 P).1 = durable (applyEntries s S).1 ∧
    (applyEntries (applyEntries s S).1 P).1.triggered
      = (applyEntries s S).1.triggered ++ P.map waitID := by
  apply applyEntries_stale
  intro e he
  have heS : e ∈ S := hS ▸ List.mem_append_left Q he
  have h1 : e.index ≤ maxIndex S := mem_le_maxIndex heS
  rw [applyEntries_ciIndex]
  exact le_trans h1 (le_max_right _ _)

/-- C2 (witness): the replay theorem evaluated on a concrete batch of one
Normal entry and one conf-change entry, replaying the one-entry prefix. -/
theorem c2_witness :
    [sampleEntryOne, sampleEntryTwo] = [sampleEntryOne] ++ [sampleEntryTwo] ∧
    (durable (applyEntries (applyEntries sampleServer [sampleEntryOne, sampleEntryTwo]).1
        [sampleEntryOne]).1
      = durable (applyEntries sampleServer [sampleEntryOne, sampleEntryTwo]).1 ∧
     (applyEntries (applyEntries sampleServer [sampleEntryOne, sampleEntryTwo]).1
        [sampleEntryOne]).1.triggered
      = (applyEntries sampleServer [sampleEntryOne, sampleEntryTwo]).1.triggered
          ++ [sampleEntryOne].map waitID) :=
  ⟨rfl, c2_idempotent_replay sampleServer [sampleEntryOne, sampleEntryTwo]
      [sampleEntryOne] [sampleEntryTwo] rfl⟩

/-- C3: after `apply(entries)` on a batch of strictly increasing, fresh
entries, the in-memory applied index and — once the pre-commit hook has
run — the persisted `consistent_index` in the meta bucket equal
`max(entries.index)`; the persisted value never regresses; and in the
concrete scenario of a single `EntryConfChange` at index 2, term 4 for
`Add(2)`, the applied index is 2, the persisted consistent index is 2, and
the conf state persisted in the meta bucket is the one returned by the Raft
library's `ApplyConfChange`, namely voters `[2]`. -/
theorem c3_consistent_index_after_apply (s : EtcdServer) (S : List Entry)
    (hne : S ≠ [])
    (hsorted : List.Pairwise (fun a b => a.index < b.index) S)
    (hfresh : s.ciIndex ≤ maxIndex S)
    (hmeta : s.meta.consistentIndex ≤ s.ciIndex) :
    (applyEntries s S).1.appliedIndex = maxIndex S ∧
    (onPreCommitUnsafe (applyEntries s S).1).meta.consistentIndex = maxIndex S ∧
    s.meta.consistentIndex
        ≤ (onPreCommitUnsafe (applyEntries s S).1).meta.consistentIndex ∧
    ((applyEntries c3Server [c3Entry]).1.appliedIndex = 2 ∧
     (onPreCommitUnsafe (applyEntries c3Server [c3Entry]).1).meta.consistentIndex = 2 ∧
     (onPreCommitUnsafe (applyEntries c3Server [c3Entry]).1).meta.confState
        = raftApplyConfChange (ConfState.mk []) c3ConfChange ∧
     raftApplyConfChange (ConfState.mk []) c3ConfChange = ConfState.mk [2]) := by
  have hci : (applyEntries s S).1.ciIndex = max s.ciIndex (maxIndex S) :=
    applyEntries_ciIndex S s
  have hpersist : (onPreCommitUnsafe (applyEntries s S).1).meta.consistentIndex
      = (applyEntries s S).1.ciIndex := rfl
  refine ⟨applyEntries_appliedIndex_sorted S s hne hsorted, ?_, ?_, by decide⟩
  · rw [hpersist, hci]; omega
  · rw [hpersist, hci]; omega

/-- C3 (witness): the consistent-index theorem evaluated on the concrete
`Add(2)` scenario itself. -/
theorem c3_witness :
    ([c3Entry] ≠ ([] : List Entry) ∧
     List.Pairwise (fun a b => a.index < b.index) [c3Entry] ∧
     c3Server.ciIndex ≤ maxIndex [c3Entry] ∧
     c3Server.meta.consistentIndex ≤ c3Server.ciIndex) ∧
    (applyEntries c3Server [c3Entry]).1.appliedIndex = maxIndex [c3Entry] :=
  ⟨⟨by decide, by simp, by decide, by decide⟩,
   (c3_consistent_index_after_apply c3Server [c3Entry]
      (by decide) (by simp) (by decide) (by decide)).1⟩

/-- C4: `applyConfChange` returns `shouldStop = true` exactly when a valid
`RemoveNode` conf change targets the local member's id — false for a valid
removal of any other member or any other change type, false on validation
failure — and in the concrete multi-entry batch removing members 1..4 on a
server whose local member 2 is among them, `apply` still returns
`shouldStop = true`. -/
theorem c4_remove_self_stop :
    (∀ (s : EtcdServer) (cc : ConfChange) (b : Bool),
      validateConfChange s.cluster cc = none →
        (applyConfChange s cc b).shouldStop
          = decide (cc.typ = ConfChangeType.removeNode ∧ cc.nodeID = s.memberID)) ∧
    (∀ (s : EtcdServer) (cc : ConfChange) (b : Bool) (e : MembershipError),
      validateConfChange s.cluster cc = some e →
        (applyConfChange s cc b).shouldStop = false) ∧
    (applyEntries c4Server c4Entries).2 = true := by
  refine ⟨?_, ?_, by decide⟩
  · intro s cc b h
    simp [applyConfChange, h]
  · intro s cc b e h
    simp [applyConfChange, h]

/-- C4 (witness): the self-stop theorem evaluated at a valid removal of the
local member (true) and at an invalid removal (false). -/
theorem c4_witness :
    (applyConfChange c4Server ⟨.removeNode, 2, [], 0⟩ true).shouldStop
      = decide ((ConfChangeType.removeNode = ConfChangeType.removeNode) ∧
          ((2 : Nat) = c4Server.memberID)) ∧
    (applyConfChange c4Server ⟨.removeNode, 9, [], 0⟩ true).shouldStop = false :=
  ⟨c4_remove_self_stop.1 c4Server ⟨.removeNode, 2, [], 0⟩ true (by decide),
   c4_remove_self_stop.2.1 c4Server ⟨.removeNode, 9, [], 0⟩ true .errIDNotFound
      (by decide)⟩

/-- C5: on validation failure `applyConfChange` returns exactly the
validation error and still calls the Raft library's `ApplyConfChange` with
the same type and context but `NodeID` overwritten to `None` (0); and the
validator maps Add/Update of a previously removed id to `ID-removed`, Add
of a live id to `ID-exists`, and Remove of an absent id to `ID-not-found`. -/
theorem c5_validation_error_and_rewrite :
    (∀ (s : EtcdServer) (cc : ConfChange) (b : Bool) (e : MembershipError),
      validateConfChange s.cluster cc = some e →
        (applyConfChange s cc b).err = some e ∧
        (applyConfChange s cc b).srv.raftActions
          = s.raftActions
              ++ [RaftAction.applyConfChange (ConfChange.mk cc.typ 0 cc.context cc.ccid)]) ∧
    (∀ (v : MembershipView) (n w : Nat) (ctx : List Nat),
      n ∈ v.removed →
        validateConfChange v ⟨.addNode, n, ctx, w⟩ = some .errIDRemoved ∧
        validateConfChange v ⟨.updateNode, n, ctx, w⟩ = some .errIDRemoved) ∧
    (∀ (v : MembershipView) (n w : Nat) (ctx : List Nat),
      n ∉ v.removed → n ∈ v.members →
        validateConfChange v ⟨.addNode, n, ctx, w⟩ = some .errIDExists) ∧
    (∀ (v : MembershipView) (n w : Nat) (ctx : List Nat),
      n ∉ v.members →
        validateConfChange v ⟨.removeNode, n, ctx, w⟩ = some .errIDNotFound) := by
  refine ⟨?_, ?_, ?_, ?_⟩
  · intro s cc b e h
    exact ⟨by simp [applyConfChange, h], by simp [applyConfChange, h]⟩
  · intro v n w ctx h
    exact ⟨by simp [validateConfChange, h], by simp [validateConfChange, h]⟩
  · intro v n w ctx h1 h2
    simp [validateConfChange, h1, h2]
  · intro v n w ctx h
    simp [validateConfChange, h]

/-- C5 (witness): the validation theorem evaluated at `Add(4)` on a cluster
where member 4 was previously removed: the error is `ID-removed` and the
Raft library receives the conf change with `NodeID = 0` and the original
context. -/
theorem c5_witness :
    validateConfChange c5View ⟨.addNode, 4, [42], 8⟩ = some .errIDRemoved ∧
    (applyConfChange c5Server ⟨.addNode, 4, [42], 8⟩ true).err
      = some MembershipError.errIDRemoved ∧
    (applyConfChange c5Server ⟨.addNode, 4, [42], 8⟩ true).srv.raftActions
      = c5Server.raftActions
          ++ [RaftAction.applyConfChange (ConfChange.mk .addNode 0 [42] 8)] :=
  ⟨(c5_validation_error_and_rewrite.2.1 c5View 4 8 [42] (by decide)).1,
   (c5_validation_error_and_rewrite.1 c5Server ⟨.addNode, 4, [42], 8⟩ true
      .errIDRemoved (by decide)).1,
   (c5_validation_error_and_rewrite.1 c5Server ⟨.addNode, 4, [42], 8⟩ true
      .errIDRemoved (by decide)).2⟩

/-- C6: snapshot ordering — for a snapshot received via the peer transport,
the staged `<snapdir>/<index>.snap.db` file exists on disk before the
`Ready` carrying the snapshot is handled; the storage trace is exactly
`SaveSnap`, then `Sync`, then the rename of the staged file to the live DB,
so every `SaveSnap` precedes every rename; and after handling, the staged
file is gone and the live DB is present. -/
theorem c6_snapshot_ordering (fs0 : List String) (snapdir db : String) (idx : Nat)
    (hstaged : snapDbPath snapdir idx ∉ fs0)
    (hdb : snapDbPath snapdir idx ≠ db) :
    snapDbPath snapdir idx ∈ (receiveSnapshot ⟨fs0, []⟩ snapdir idx).fs ∧
    (applySnapshotReady (receiveSnapshot ⟨fs0, []⟩ snapdir idx) snapdir db idx).trace
      = [.saveSnap idx, .sync, .renameDB (snapDbPath snapdir idx) db] ∧
    (∀ (i j : Nat) (src dst : String),
      ((applySnapshotReady (receiveSnapshot ⟨fs0, []⟩ snapdir idx) snapdir db idx).trace).get? i
          = some (.saveSnap idx) →
      ((applySnapshotReady (receiveSnapshot ⟨fs0, []⟩ snapdir idx) snapdir db idx).trace).get? j
          = some (.renameDB src dst) →
      i < j) ∧
    snapDbPath snapdir idx
      ∉ (applySnapshotReady (receiveSnapshot ⟨fs0, []⟩ snapdir idx) snapdir db idx).fs ∧
    db ∈ (applySnapshotReady (receiveSnapshot ⟨fs0, []⟩ snapdir idx) snapdir db idx).fs := by
  have htrace :
      (applySnapshotReady (receiveSnapshot ⟨fs0, []⟩ snapdir idx) snapdir db idx).trace
        = [.saveSnap idx, .sync, .renameDB (snapDbPath snapdir idx) db] := rfl
  have hfs :
      (applySnapshotReady (receiveSnapshot ⟨fs0, []⟩ snapdir idx) snapdir db idx).fs
        = ((fs0 ++ [snapDbPath snapdir idx]).erase (snapDbPath snapdir idx)) ++ [db] := rfl
  have herase : (fs0 ++ [snapDbPath snapdir idx]).erase (snapDbPath snapdir idx) = fs0 := by
    rw [List.erase_append_right _ hstaged, List.erase_cons_head, List.append_nil]
  refine ⟨by simp [receiveSnapshot], htrace, ?_, ?_, ?_⟩
  · intro i j src dst hi hj
    rw [htrace] at hi hj
    have hi0 : i = 0 := by
      rcases i with _ | _ | _ | n
      · rfl
      · simp [List.get?] at hi
      · simp [List.get?] at hi
      · simp [List.get?] at hi
    have hj2 : j = 2 := by
      rcases j with _ | _ | _ | n
      · simp [List.get?] at hj
      · simp [List.get?] at hj
      · rfl
      · simp [List.get?] at hj
    omega
  · rw [hfs, herase]
    simp [hstaged, hdb]
  · rw [hfs, herase]
    simp

/-- C6 (witness): the snapshot-ordering theorem evaluated on a concrete
snapshot directory, DB path and index. -/
theorem c6_witness :
    (snapDbPath "/snap" 1 ∉ ["other"] ∧ snapDbPath "/snap" 1 ≠ "db") ∧
    (applySnapshotReady (receiveSnapshot ⟨["other"], []⟩ "/snap" 1) "/snap" "db" 1).trace
      = [.saveSnap 1, .sync, .renameDB (snapDbPath "/snap" 1) "db"] :=
  ⟨⟨by decide, by decide⟩,
   (c6_snapshot_ordering ["other"] "/snap" "db" 1 (by decide) (by decide)).2.1⟩

/-- C7: a memory snapshot (`toDisk = false`) updates only
`memorySnapshotIndex` (to the applied index), leaves every other field of
the progress — in particular `diskSnapshotIndex` — unchanged, and performs
no storage action; a disk snapshot (`toDisk = true`) sets both
`memorySnapshotIndex` and `diskSnapshotIndex` to the applied index and
performs exactly one `SaveSnap` followed by exactly one `Release`. -/
theorem c7_snapshot_frame (ep : EtcdProgress) :
    ((snapshot ep false).1 = { ep with memorySnapshotIndex := ep.appliedIndex } ∧
     (snapshot ep false).2 = []) ∧
    ((snapshot ep true).1
        = { ep with memorySnapshotIndex := ep.appliedIndex,
                    diskSnapshotIndex := ep.appliedIndex } ∧
     (snapshot ep true).2
        = [.saveSnap ep.appliedIndex, .release ep.appliedIndex]) := by
  simp [snapshot]

/-- C8: `Process` rejects a raft message whose `To` field differs from this
server's member id — it returns a (non-nil) mismatch error and leaves the
server, in particular the record of `Step` calls into raft, untouched. -/
theorem c8_process_mismatch (s : EtcdServer) (m : Message)
    (h : m.msgTo ≠ s.memberID) :
    (process s m).1 = some ProcessError.errMismatchedMember ∧
    (process s m).2 = s := by
  simp [process, h]

/-- C8 (witness): the mismatch theorem evaluated at a heartbeat addressed to
member 2 on the server with member id 1. -/
theorem c8_witness :
    (Message.mk 2 3 11).msgTo ≠ sampleServer.memberID ∧
    ((process sampleServer (Message.mk 2 3 11)).1
        = some ProcessError.errMismatchedMember ∧
     (process sampleServer (Message.mk 2 3 11)).2 = sampleServer) :=
  ⟨by decide, c8_process_mismatch sampleServer (Message.mk 2 3 11) (by decide)⟩

/-- C9: `waitAppliedIndex` returns `nil` when `appliedIndex ≥
committedIndex` as observed at call time (whatever fires later); when the
applied index is behind, it returns `ErrStopped` if the `stopping` channel
fires first and `ErrTimeoutWaitAppliedIndex` if the configured deadline
fires first. -/
theorem c9_wait_applied_index (s : EtcdServer) :
    (s.committedIndex ≤ s.appliedIndex →
      ∀ first, waitAppliedIndex s first = none) ∧
    (s.appliedIndex < s.committedIndex →
      waitAppliedIndex s .stoppingFired = some .errStopped ∧
      waitAppliedIndex s .deadlineExceeded = some .errTimeoutWaitAppliedIndex) := by
  constructor
  · intro h first
    simp [waitAppliedIndex, h]
  · intro h
    have h' : ¬ s.committedIndex ≤ s.appliedIndex := Nat.not_le.mpr h
    exact ⟨by simp [waitAppliedIndex, h'], by simp [waitAppliedIndex, h']⟩

/-- A server whose applied index has caught up with the committed index. -/
def c9Caught : EtcdServer :=
  { sampleServer with appliedIndex := 10, committedIndex := 10 }

/-- A server whose applied index is behind the committed index. -/
def c9Behind : EtcdServer :=
  { sampleServer with appliedIndex := 10, committedIndex := 12 }

/-- C9 (witness): the wait theorem evaluated on the three scenarios of the
claim — caught up (nil), stopping first (`ErrStopped`), deadline first
(`ErrTimeoutWaitAppliedIndex`). -/
theorem c9_witness :
    waitAppliedIndex c9Caught .deadlineExceeded = none ∧
    waitAppliedIndex c9Behind .stoppingFired = some .errStopped ∧
    waitAppliedIndex c9Behind .deadlineExceeded = some .errTimeoutWaitAppliedIndex :=
  ⟨(c9_wait_applied_index c9Caught).1 (by decide) .deadlineExceeded,
   ((c9_wait_applied_index c9Behind).2 (by decide)).1,
   ((c9_wait_applied_index c9Behind).2 (by decide)).2⟩

/-- C10: replaying an already-applied sequence of entries after a simulated
restart (the validation view rebuilt from scratch, the consistent index
left in place) issues to the Raft library exactly the same sequence of
`ApplyConfChange` calls as the first pass — including the `NodeID := None`
rewrites — and forwards one call per conf-change entry even though every
entry is deduplicated for state-machine side effects. -/
theorem c10_replay_reissues_conf_changes (s : EtcdServer) (S : List Entry)
    (hv : s.cluster = MembershipView.mk [] []) :
    ((applyEntries { (applyEntries s S).1 with
        cluster := MembershipView.mk [] [] } S).1.raftActions).drop
      ((applyEntries s S).1.raftActions.length)
      = ((applyEntries s S).1.raftActions).drop s.raftActions.length ∧
    ((applyEntries { (applyEntries s S).1 with
        cluster := MembershipView.mk [] [] } S).1.raftActions).length
      = (applyEntries s S).1.raftActions.length + (S.filter isConfEntry).length := by
  have h1 := (applyEntries_trace S s).1
  have h2 := (applyEntries_trace S
    { (applyEntries s S).1 with cluster := MembershipView.mk [] [] }).1
  have hup : ({ (applyEntries s S).1 with
      cluster := MembershipView.mk [] [] } : EtcdServer).raftActions
      = (applyEntries s S).1.raftActions := rfl
  have hupc : ({ (applyEntries s S).1 with
      cluster := MembershipView.mk [] [] } : EtcdServer).cluster
      = MembershipView.mk [] [] := rfl
  rw [hup, hupc] at h2
  rw [hv] at h1
  constructor
  · rw [h2, h1, List.drop_left, List.drop_left]
  · rw [h2]
    simp [confTrace_length]

/-- The entries of the replay scenario: add member 1, remove it again, then
an update of the removed member that fails validation on both passes. -/
def c10Entries : List Entry :=
  [⟨1, 1, .confChange ⟨.addNode, 1, [3], 1⟩⟩,
   ⟨1, 2, .confChange ⟨.removeNode, 1, [], 2⟩⟩,
   ⟨1, 3, .confChange ⟨.updateNode, 1, [3], 3⟩⟩]

/-- A freshly started server with an empty validation view. -/
def c10Server : EtcdServer :=
  { memberID := 1, cluster := ⟨[], []⟩, backendMembers := ⟨[], []⟩,
    confState := ⟨[]⟩, stagedConfState := none,
    appliedTerm := 0, appliedIndex := 0, committedIndex := 3,
    ciTerm := 0, ciIndex := 0, meta := ⟨0, 0, ⟨[]⟩⟩,
    kvLog := [], raftActions := [], triggered := [] }

/-- C10 (witness): the replay theorem evaluated on the concrete
add/remove/update sequence of the restart scenario. -/
theorem c10_witness :
    c10Server.cluster = MembershipView.mk [] [] ∧
    ((applyEntries { (applyEntries c10Server c10Entries).1 with
        cluster := MembershipView.mk [] [] } c10Entries).1.raftActions).drop
      ((applyEntries c10Server c10Entries).1.raftActions.length)
      = ((applyEntries c10Server c10Entries).1.raftActions).drop
          c10Server.raftActions.length :=
  ⟨rfl, (c10_replay_reissues_conf_changes c10Server c10Entries rfl).1⟩

end Etcd
